import Mathlib

/-!
Verification of the MaternalBrainPupillometry scripts.

The repository consists of three pandas-based batch scripts:
  * `neuropticsProcessingSubjectAverages.py` — per-subject averager,
  * `splitNeuropticsDataByProtocol.py` — protocol/eye splitter,
  * `tbmsNeuropticsPhysioCorrStats.py` — group statistics pipeline.

We embed the data model (a CSV table loaded by `pd.read_csv`) as a list of
rows of cells, where a cell is a string, an (idealised, rational) number, or
missing (`NaN`).  The pandas operations the scripts use — column selection,
`groupby` on two key columns (which drops rows with a missing key),
NaN-skipping `mean`, `dropna(subset=...)`, `replace`, projection — are
translated directly.  SciPy statistical routines (`pearsonr`, `shapiro`,
`f_oneway`, `kruskal`) are modelled as oracle parameters where only the data
flow matters, and the Pearson coefficient is additionally given its
mathematical definition over the reals where a claim is about its value.
-/
/-- A cell of a loaded CSV table: a string value, a numeric value
(idealised as a rational), or a missing value (pandas `NaN`). -/
inductive Cell where
  | str (s : String)
  | num (q : ℚ)
  | na
deriving DecidableEq, Repr

/-- The numeric content of a cell, if any. -/
def Cell.toNum : Cell → Option ℚ
  | Cell.num q => some q
  | _ => none

/-- A data table: a header (column names, in order) and rows, each row one
cell per column (by position, as in a CSV file). -/
structure DataFrame where
  cols : List String
  rows : List (List Cell)
deriving DecidableEq, Repr

/-- Index of the first occurrence of a column name in a header. -/
def colIdx : List String → String → Option ℕ
  | [], _ => none
  | c :: cs, d => if c = d then some 0 else (colIdx cs d).map (· + 1)

/-- The cell of row `r` in column `c` of `df` (missing column reads as `na`;
the scripts only access columns they have checked to be present). -/
def DataFrame.cellAt (df : DataFrame) (r : List Cell) (c : String) : Cell :=
  ((colIdx df.cols c).map (fun i => r.getD i Cell.na)).getD Cell.na

/-- The `groupby(['MeasurementType', 'Pupil Measured'])` key of a row:
`none` when either key cell is missing (pandas `groupby` drops such rows,
`dropna=True` being the default). -/
def DataFrame.rowKey (df : DataFrame) (r : List Cell) : Option (Cell × Cell) :=
  let a := df.cellAt r "MeasurementType"
  let b := df.cellAt r "Pupil Measured"
  if a = Cell.na ∨ b = Cell.na then none else some (a, b)

/-- The distinct group keys present in the table (rows with a missing key
contribute no key). -/
def DataFrame.groupKeys (df : DataFrame) : List (Cell × Cell) :=
  (df.rows.filterMap df.rowKey).dedup

/-- The rows of the group with key `k`. -/
def DataFrame.groupRows (df : DataFrame) (k : Cell × Cell) : List (List Cell) :=
  df.rows.filter (fun r => df.rowKey r == some k)

/-- The cells of column `c` over a given list of rows of `df`. -/
def colCells (df : DataFrame) (rs : List (List Cell)) (c : String) : List Cell :=
  rs.map (fun r => df.cellAt r c)

/-- `non_numeric_columns`: the denylist of identifier/categorical columns the
averager excludes from averaging even when numeric-typed. -/
def non_numeric_columns : List String :=
  ["Record ID", "Device ID", "Time", "Pupil Measured", "MeasurementType"]

/-- A column is numeric-typed (pandas dtype `float64`/`int64`) when every
cell is numeric or missing. -/
def DataFrame.isNumericCol (df : DataFrame) (c : String) : Bool :=
  (colCells df df.rows c).all (fun x => x.toNum.isSome || x == Cell.na)

/-- `df.select_dtypes(include=['float64', 'int64']).columns`. -/
def DataFrame.numericCols (df : DataFrame) : List String :=
  df.cols.filter df.isNumericCol

/-- The columns the averager averages: numeric-typed columns minus the
denylist. -/
def avgCols (df : DataFrame) : List String :=
  df.numericCols.filter (fun c => !(non_numeric_columns.contains c))

/-- Pandas NaN-skipping `mean` of a column: mean of the numeric cells,
`NaN` when there is none. -/
def naMean (cells : List Cell) : Cell :=
  let vs := cells.filterMap Cell.toNum
  if vs = [] then Cell.na else Cell.num (vs.sum / vs.length)

/-- Result of the averager: the averaged (numeric) column names and one row
of means per group key. -/
structure AvgResult where
  cols : List String
  rows : List ((Cell × Cell) × List Cell)
deriving DecidableEq, Repr

/-- `calculate_averages`: check the two key columns, select numeric columns
minus the denylist, group by `(MeasurementType, Pupil Measured)` and take
the per-group NaN-skipping mean of each selected column.  `none` models the
reported-error early return. -/
def calculate_averages (df : DataFrame) : Option AvgResult :=
  if "Pupil Measured" ∈ df.cols ∧ "MeasurementType" ∈ df.cols then
    some { cols := avgCols df
           rows := df.groupKeys.map (fun k =>
             (k, (avgCols df).map (fun c => naMean (colCells df (df.groupRows k) c)))) }
  else none

/-- Concrete table exercising the averager: two groups, a numeric
denylisted column, and a NaN among the averaged values. -/
def dfAvgEx : DataFrame :=
  { cols := ["MeasurementType", "Pupil Measured", "Record ID", "PLR Latency"]
    rows := [ [Cell.num 1, Cell.str "left", Cell.num 7, Cell.num 2]
            , [Cell.num 1, Cell.str "left", Cell.num 8, Cell.num 4]
            , [Cell.num 2, Cell.str "left", Cell.num 9, Cell.num 5] ] }

/-- `required_columns` of `split_csv_file`. -/
def required_columns : List String :=
  ["MeasurementType", "Pupil Measured", "Patient ID",
   "PLR Diameter Init", "PLR Diameter End", "PLR Latency",
   "PLR Constriction Velocity", "PLR Max Constriction Velocity",
   "PLR Dilation Velocity", "PLR T75", "Amplitude"]

/-- `df[cs]`: projection of a table to the columns `cs`, in that order. -/
def DataFrame.project (df : DataFrame) (cs : List String) : DataFrame :=
  { cols := cs, rows := df.rows.map (fun r => cs.map (df.cellAt r)) }

/-- Text form of a group-key cell as interpolated into the output filename
`f"{measurement_type}_{pupil_measured}_tebs.csv"`. -/
def cellText : Cell → String
  | Cell.str s => s
  | Cell.num q => if q.den = 1 then toString q.num else toString q
  | Cell.na => "nan"

/-- Output filename of one group. -/
def splitFileName (k : Cell × Cell) : String :=
  cellText k.1 ++ "_" ++ cellText k.2 ++ "_tebs.csv"

/-- Observable effect of one splitter run: whether the output directory was
created, the sequence of file writes (filename, content) in order, and the
reported error if any. -/
structure SplitOutput where
  dirCreated : Bool
  writes : List (String × DataFrame)
  errorMsg : Option String
deriving DecidableEq, Repr

/-- `split_csv_file`: check the eleven required columns; on failure report
and return before touching the filesystem; on success project to exactly the
required columns, group by `(MeasurementType, Pupil Measured)` and write one
CSV per group. -/
def split_csv_file (df : DataFrame) : SplitOutput :=
  if ∀ c ∈ required_columns, c ∈ df.cols then
    let proj := df.project required_columns
    { dirCreated := true
      writes := proj.groupKeys.map (fun k =>
        (splitFileName k, { cols := required_columns, rows := proj.groupRows k }))
      errorMsg := none }
  else
    { dirCreated := false
      writes := []
      errorMsg := some "Error: Some required columns are missing in the CSV file." }

/-- The files left on disk after a run: later writes to the same filename
overwrite earlier ones. -/
def finalizeWrites (ws : List (String × DataFrame)) : List (String × DataFrame) :=
  ws.foldl (fun acc w => acc.filter (fun x => x.1 != w.1) ++ [w]) []

/-- Final filesystem content of the splitter's output directory. -/
def finalFiles (out : SplitOutput) : List (String × DataFrame) :=
  finalizeWrites out.writes

/-- A table with all eleven required columns and two distinct
(MeasurementType, Pupil Measured) pairs, ("a", "b_c") and ("a_b", "c"),
whose derived output filenames coincide (`a_b_c_tebs.csv`). -/
def dfSplitClash : DataFrame :=
  { cols := required_columns
    rows := [ Cell.str "a" :: Cell.str "b_c" :: List.replicate 9 (Cell.num 0)
            , Cell.str "a_b" :: Cell.str "c" :: List.replicate 9 (Cell.num 0) ] }

/-- A well-behaved splitter input: required columns plus an extra column,
two groups with no filename collision. -/
def dfSplitEx : DataFrame :=
  { cols := required_columns ++ ["Extra"]
    rows := [ Cell.str "1" :: Cell.str "left" :: List.replicate 10 (Cell.num 3)
            , Cell.str "1" :: Cell.str "left" :: List.replicate 10 (Cell.num 5)
            , Cell.str "2" :: Cell.str "left" :: List.replicate 10 (Cell.num 4) ] }

/-- A table lacking the `Amplitude` column. -/
def dfMissingAmp : DataFrame :=
  { cols := ["MeasurementType", "Pupil Measured", "Patient ID"]
    rows := [[Cell.str "1", Cell.str "left", Cell.num 4]] }

/-- The CSV lines appended for one averager result: one line per group,
the two index (key) values first, and no header line
(`averages.to_csv(filename, mode='a', header=False)`). -/
def to_csv_rows (res : AvgResult) : List (List Cell) :=
  res.rows.map (fun kv => kv.1.1 :: kv.1.2 :: kv.2)

/-- One run of the averager main program against master-file content
`master`: on success the result lines are appended, on reported error the
master file is untouched. -/
def run_averager (master : List (List Cell)) (df : DataFrame) : List (List Cell) :=
  match calculate_averages df with
  | some res => master ++ to_csv_rows res
  | none => master

/-- The lines one run appends to the master file. -/
def appendedRows (df : DataFrame) : List (List Cell) :=
  match calculate_averages df with
  | some res => to_csv_rows res
  | none => []

/-- A row lacking its Pupil Measured value. -/
def naKeyRow : List Cell := Cell.str "1" :: Cell.na :: List.replicate 9 (Cell.num 6)

/-- A table with all required columns whose second row is `naKeyRow`. -/
def dfNaKey : DataFrame :=
  { cols := required_columns
    rows := [ Cell.str "1" :: Cell.str "left" :: List.replicate 9 (Cell.num 2)
            , naKeyRow ] }

/-- `dependent_vars`: the live (dark-flash) configuration of the script. -/
def dependent_vars : List String :=
  ["PLR_Diameter_Init", "PLR_Diameter_End", "PLR_Latency",
   "PLR_Dilation_Velocity", "Amplitude"]

/-- `covariates`. -/
def covariates : List String :=
  ["Age", "BMI", "PostpartumMonths", "BPsys", "BPdia", "HR"]

/-- The ordered variable list of the correlation stage
(`dependent_vars + covariates`). -/
def analysisVars : List String := dependent_vars ++ covariates

/-- `replace({'Preg Norm': 'Pregnant', 'Preg Hyper': 'Pregnant'})` applied
to one cell: exactly the two matched labels are rewritten. -/
def coalesceCell (c : Cell) : Cell :=
  if c = Cell.str "Preg Norm" ∨ c = Cell.str "Preg Hyper" then Cell.str "Pregnant" else c

/-- Apply `f` to the cell at position `i` of a row (identity beyond the
row's end). -/
def mapAt (f : Cell → Cell) : ℕ → List Cell → List Cell
  | _, [] => []
  | 0, c :: r => f c :: r
  | n + 1, c :: r => c :: mapAt f n r

/-- Step 1 of the pipeline:
`df['Group'] = df['Group'].replace({'Preg Norm': 'Pregnant', 'Preg Hyper': 'Pregnant'})`. -/
def coalesceGroups (df : DataFrame) : DataFrame :=
  { cols := df.cols
    rows := ((colIdx df.cols "Group").map
      (fun gi => df.rows.map (mapAt coalesceCell gi))).getD df.rows }

/-- A labelled table: Group plus the eleven analysis columns, one row per
label Control / Preg Norm / Preg Hyper. -/
def dfStatsEx : DataFrame :=
  { cols := "Group" :: analysisVars
    rows := [ Cell.str "Control" :: List.replicate 11 (Cell.num 0)
            , Cell.str "Preg Norm" :: List.replicate 11 (Cell.num 1)
            , Cell.str "Preg Hyper" :: List.replicate 11 (Cell.num 2) ] }

/-- Row is in the Control group (`df[df['Group'] == 'Control']`). -/
def isControlRow (df : DataFrame) (r : List Cell) : Bool :=
  df.cellAt r "Group" == Cell.str "Control"

/-- Row is in the Pregnant group (`df[df['Group'] == 'Pregnant']`). -/
def isPregnantRow (df : DataFrame) (r : List Cell) : Bool :=
  df.cellAt r "Group" == Cell.str "Pregnant"

/-- Row has no missing value among the dependent variables and covariates
(kept by `dropna(subset=dependent_vars + covariates)`). -/
def completeRow (df : DataFrame) (r : List Cell) : Bool :=
  analysisVars.all (fun c => !(df.cellAt r c == Cell.na))

/-- `df_control`: Control rows with the rows carrying any missing analysis
value dropped. -/
def df_control (df : DataFrame) : List (List Cell) :=
  (df.rows.filter (isControlRow df)).filter (completeRow df)

/-- `df_pregnant`: Pregnant rows, not filtered for missingness. -/
def df_pregnant (df : DataFrame) : List (List Cell) :=
  df.rows.filter (isPregnantRow df)

/-- `df_cleaned = pd.concat([df_control, df_pregnant])`. -/
def df_cleaned (df : DataFrame) : List (List Cell) :=
  df_control df ++ df_pregnant df

/-- Update one matrix entry. -/
def updM {α : Type} (M : ℕ → ℕ → α) (i j : ℕ) (v : α) : ℕ → ℕ → α :=
  fun a b => if a = i ∧ b = j then v else M a b

/-- One iteration of the fill loop: write value `v i j` at `(i, j)` and
mirror it at `(j, i)`. -/
def writeSym {α : Type} (v : ℕ → ℕ → α) (M : ℕ → ℕ → α) (p : ℕ × ℕ) : ℕ → ℕ → α :=
  updM (updM M p.1 p.2 (v p.1 p.2)) p.2 p.1 (v p.1 p.2)

/-- The loop's index pairs: `for i in range(n): for j in range(i, n)`. -/
def pairList (n : ℕ) : List (ℕ × ℕ) :=
  (List.range n).flatMap (fun i =>
    ((List.range n).filter (fun j => i ≤ j)).map (fun j => (i, j)))

/-- The double loop writing one value per unordered index pair. -/
def fillSym {α : Type} (v : ℕ → ℕ → α) (ps : List (ℕ × ℕ)) (M : ℕ → ℕ → α) :
    ℕ → ℕ → α :=
  ps.foldl (writeSym v) M

/-- The double loop of the script fills the correlation and p-value
matrices together from one `pearsonr` call per pair. -/
def fillBoth {α : Type} (v : ℕ → ℕ → α × α) (ps : List (ℕ × ℕ))
    (MP : (ℕ → ℕ → α) × (ℕ → ℕ → α)) : (ℕ → ℕ → α) × (ℕ → ℕ → α) :=
  ps.foldl (fun MP p =>
    (writeSym (fun i j => (v i j).1) MP.1 p, writeSym (fun i j => (v i j).2) MP.2 p)) MP

/-- The cleaned data's column for analysis variable `i`. -/
def analysisCol (df : DataFrame) (i : ℕ) : List Cell :=
  colCells df (df_cleaned df) (analysisVars.getD i "")

/-- Step 2 of the pipeline: starting from the initial matrices (the pandas
`.corr()` matrix `M0`, overwritten entirely by the loop, and the zero
p-value matrix), fill both matrices with one `pearsonr` result per index
pair `i ≤ j`, mirrored to `(j, i)`.  The `pearsonr` call is the oracle
`pr`, applied to the cleaned data's columns. -/
def corrStage {α : Type} [Zero α] (pr : List Cell → List Cell → α × α)
    (M0 : ℕ → ℕ → α) (df : DataFrame) : (ℕ → ℕ → α) × (ℕ → ℕ → α) :=
  fillBoth (fun i j => pr (analysisCol df i) (analysisCol df j))
    (pairList analysisVars.length) (M0, fun _ _ => (0 : α))

/-- Which significance test step 4 selected. -/
inductive TestKind where
  | anova
  | kruskal
deriving DecidableEq, Repr

/-- One line of the group-comparison report. -/
structure GroupComparison where
  varName : String
  test : TestKind
  pval : ℚ
deriving DecidableEq, Repr

/-- `df[df['Group'] == 'Control'][dep_var]` (full coalesced table, no
missingness filtering). -/
def controlVec (df : DataFrame) (v : String) : List Cell :=
  colCells df (df.rows.filter (isControlRow df)) v

/-- `df[df['Group'] == 'Pregnant'][dep_var]`. -/
def pregnantVec (df : DataFrame) (v : String) : List Cell :=
  colCells df (df.rows.filter (isPregnantRow df)) v

/-- Step 4 of the pipeline: per dependent variable, Shapiro-Wilk both group
vectors; if both p-values exceed 0.05 run one-way ANOVA, otherwise run
Kruskal-Wallis.  `sh`, `anovaP`, `kruskalP` are the SciPy oracles returning
each test's p-value. -/
def stage4 (sh : List Cell → ℚ) (anovaP kruskalP : List Cell → List Cell → ℚ)
    (df : DataFrame) : List GroupComparison :=
  dependent_vars.map (fun v =>
    if sh (controlVec df v) > 1 / 20 ∧ sh (pregnantVec df v) > 1 / 20 then
      { varName := v, test := TestKind.anova
        pval := anovaP (controlVec df v) (pregnantVec df v) }
    else
      { varName := v, test := TestKind.kruskal
        pval := kruskalP (controlVec df v) (pregnantVec df v) })

/-- Result of a successful pipeline run (stages modelled here). -/
structure StatsResult (α : Type) where
  table : DataFrame
  corr : ℕ → ℕ → α
  pvals : ℕ → ℕ → α
  comparisons : List GroupComparison

/-- The statistics pipeline: the script performs `df['Group']` and
`df[dependent_vars + covariates]` accesses with no schema check; a missing
column there raises a `KeyError` that no handler catches (the script's only
`try` wraps the CSV load), modelled as `Except.error`. -/
def statsPipeline {α : Type} [Zero α] (pr : List Cell → List Cell → α × α)
    (sh : List Cell → ℚ) (anovaP kruskalP : List Cell → List Cell → ℚ)
    (M0 : ℕ → ℕ → α) (df : DataFrame) : Except String (StatsResult α) :=
  if "Group" ∈ df.cols then
    let df2 := coalesceGroups df
    if ∀ c ∈ analysisVars, c ∈ df2.cols then
      Except.ok
        { table := df2
          corr := (corrStage pr M0 df2).1
          pvals := (corrStage pr M0 df2).2
          comparisons := stage4 sh anovaP kruskalP df2 }
    else Except.error "KeyError: analysis column"
  else Except.error "KeyError: Group"

/-- Constant `pearsonr` oracle used to instantiate data-flow theorems. -/
def prQ0 : List Cell → List Cell → ℚ × ℚ := fun _ _ => (0, 0)

/-- Constant Shapiro-Wilk p-value oracles. -/
def shQ0 : List Cell → ℚ := fun _ => 0

def shQ1 : List Cell → ℚ := fun _ => 1

/-- Constant ANOVA / Kruskal-Wallis p-value oracle. -/
def tpQ0 : List Cell → List Cell → ℚ := fun _ _ => 0

/-- Zero initial matrix. -/
def M0Q : ℕ → ℕ → ℚ := fun _ _ => 0

/-- A coalesced-label table: Group plus the eleven analysis columns, one
complete Control row (all 0) and one Pregnant row (all 1). -/
def dfCleanEx : DataFrame :=
  { cols := "Group" :: analysisVars
    rows := [ Cell.str "Control" :: List.replicate 11 (Cell.num 0)
            , Cell.str "Pregnant" :: List.replicate 11 (Cell.num 1) ] }

/-- Numeric values of a column (the claims using this assume no missing
value, which `scipy` would propagate as NaN). -/
def cellNums (l : List Cell) : List ℚ := l.filterMap Cell.toNum

/-- Arithmetic mean. -/
def meanQ (l : List ℚ) : ℚ := l.sum / l.length

/-- Sum of squared deviations from the mean. -/
def sumSqDev (l : List ℚ) : ℚ := (l.map (fun x => (x - meanQ l) ^ 2)).sum

/-- Sum of products of paired deviations. -/
def sumDevProd (xs ys : List ℚ) : ℚ :=
  ((xs.zip ys).map (fun p => (p.1 - meanQ xs) * (p.2 - meanQ ys))).sum

/-- The Pearson correlation coefficient. -/
noncomputable def pearsonR (xs ys : List ℚ) : ℝ :=
  ((sumDevProd xs ys : ℚ) : ℝ) /
    Real.sqrt (((sumSqDev xs : ℚ) : ℝ) * ((sumSqDev ys : ℚ) : ℝ))

/-- `pearsonr` returning the true Pearson statistic and an oracle p-value
(the p-value's numeric value is not modelled). -/
noncomputable def scipyPearson (pOr : List Cell → List Cell → ℝ) :
    List Cell → List Cell → ℝ × ℝ :=
  fun x y => (pearsonR (cellNums x) (cellNums y), pOr x y)

/-- Zero initial real matrix. -/
def M0R : ℕ → ℕ → ℝ := fun _ _ => 0

/-- A table carrying the eleven analysis columns but no `Group` column. -/
def dfNoGroup : DataFrame :=
  { cols := analysisVars
    rows := [List.replicate 11 (Cell.num 1)] }

theorem colIdx_isSome_of_mem {cs : List String} {c : String} (h : c ∈ cs) :
    ∃ i, colIdx cs c = some i := by
  induction cs with
  | nil => cases h
  | cons c0 cs ih =>
    by_cases hc : c0 = c
    · exact ⟨0, by simp [colIdx, hc]⟩
    · rcases List.mem_cons.mp h with h' | h'
      · exact absurd h'.symm hc
      · obtain ⟨i, hi⟩ := ih h'
        exact ⟨i + 1, by simp [colIdx, hc, hi]⟩

theorem colIdx_getD {cs : List String} {c : String} {i : ℕ}
    (h : colIdx cs c = some i) (d : String) : cs.getD i d = c := by
  induction cs generalizing i with
  | nil => simp [colIdx] at h
  | cons c0 cs ih =>
    by_cases hc : c0 = c
    · rw [colIdx, if_pos hc] at h
      injection h with h
      subst h
      simpa using hc
    · rw [colIdx, if_neg hc] at h
      rw [Option.map_eq_some'] at h
      obtain ⟨j, hj, rfl⟩ := h
      simpa using ih hj

theorem getD_map_colIdx {cs : List String} {c : String} {i : ℕ} {β : Type}
    (f : String → β) (d : β) (h : colIdx cs c = some i) :
    (cs.map f).getD i d = f c := by
  induction cs generalizing i with
  | nil => simp [colIdx] at h
  | cons c0 cs ih =>
    by_cases hc : c0 = c
    · rw [colIdx, if_pos hc] at h
      injection h with h
      subst h
      simp [hc]
    · rw [colIdx, if_neg hc] at h
      rw [Option.map_eq_some'] at h
      obtain ⟨j, hj, rfl⟩ := h
      simpa using ih hj

theorem nodup_groupKeys (df : DataFrame) : df.groupKeys.Nodup :=
  List.nodup_dedup _

theorem mem_groupKeys {df : DataFrame} {k : Cell × Cell} :
    k ∈ df.groupKeys ↔ ∃ r ∈ df.rows, df.rowKey r = some k := by
  simp [DataFrame.groupKeys, List.mem_dedup, List.mem_filterMap]

theorem not_mem_groupRows {df : DataFrame} {r : List Cell}
    (h : df.rowKey r = none) (k : Cell × Cell) : r ∉ df.groupRows k := by
  intro hmem
  have := List.of_mem_filter hmem
  simp [h] at this

/-! ### Per-subject averager (`neuropticsProcessingSubjectAverages.py`) -/

/-- C1: with the two key columns present, the averager yields exactly one
row per distinct (MeasurementType, Pupil Measured) pair present in the
input, each cell is the NaN-skipping mean of the corresponding numeric
column restricted to the group, and the denylisted identifier columns
(Record ID, Device ID) are not among the result's columns. -/
theorem claim_C1 (df : DataFrame)
    (h : "Pupil Measured" ∈ df.cols ∧ "MeasurementType" ∈ df.cols) :
    ∃ res, calculate_averages df = some res ∧
      (res.rows.map Prod.fst).Nodup ∧
      (∀ k : Cell × Cell, k ∈ res.rows.map Prod.fst ↔
        ∃ r ∈ df.rows, df.rowKey r = some k) ∧
      (∀ k means, (k, means) ∈ res.rows →
        means = (avgCols df).map (fun c => naMean (colCells df (df.groupRows k) c))) ∧
      "Record ID" ∉ res.cols ∧ "Device ID" ∉ res.cols := by
  refine ⟨_, by rw [calculate_averages, if_pos h], ?_, ?_, ?_, ?_, ?_⟩
  · have : (df.groupKeys.map (fun k =>
        (k, (avgCols df).map (fun c => naMean (colCells df (df.groupRows k) c))))).map
          Prod.fst = df.groupKeys := by
      rw [List.map_map]
      exact List.map_id _
    rw [this]
    exact nodup_groupKeys df
  · intro k
    constructor
    · intro hk
      simp only [List.map_map, List.mem_map] at hk
      obtain ⟨k', hk', hke⟩ := hk
      simp only [Function.comp] at hke
      exact mem_groupKeys.mp (hke ▸ hk')
    · intro hk
      simp only [List.map_map, List.mem_map]
      exact ⟨k, mem_groupKeys.mpr hk, rfl⟩
  · intro k means hkm
    simp only [List.mem_map] at hkm
    obtain ⟨k', _, hke⟩ := hkm
    have h1 : k' = k := congrArg Prod.fst hke
    have h2 := congrArg Prod.snd hke
    simp only at h2
    rw [← h2, h1]
  · intro hmem
    have := List.of_mem_filter hmem
    simp [non_numeric_columns] at this
  · intro hmem
    have := List.of_mem_filter hmem
    simp [non_numeric_columns] at this

theorem claim_C1_witness :
    ("Pupil Measured" ∈ dfAvgEx.cols ∧ "MeasurementType" ∈ dfAvgEx.cols) ∧
    (∃ res, calculate_averages dfAvgEx = some res ∧
      (res.rows.map Prod.fst).Nodup ∧
      (∀ k : Cell × Cell, k ∈ res.rows.map Prod.fst ↔
        ∃ r ∈ dfAvgEx.rows, dfAvgEx.rowKey r = some k) ∧
      (∀ k means, (k, means) ∈ res.rows →
        means = (avgCols dfAvgEx).map
          (fun c => naMean (colCells dfAvgEx (dfAvgEx.groupRows k) c))) ∧
      "Record ID" ∉ res.cols ∧ "Device ID" ∉ res.cols) :=
  ⟨by decide, claim_C1 dfAvgEx (by decide)⟩

/-! ### Protocol/eye splitter (`splitNeuropticsDataByProtocol.py`) -/

theorem mem_finalizeWrites_aux {ws acc : List (String × DataFrame)}
    {x : String × DataFrame}
    (h : x ∈ ws.foldl (fun acc w => acc.filter (fun y => y.1 != w.1) ++ [w]) acc) :
    x ∈ acc ∨ x ∈ ws := by
  induction ws generalizing acc with
  | nil => exact Or.inl h
  | cons w ws ih =>
    rcases ih h with h' | h'
    · rcases List.mem_append.mp h' with h'' | h''
      · exact Or.inl (List.mem_of_mem_filter h'')
      · simp at h''
        exact Or.inr (by simp [h''])
    · exact Or.inr (List.mem_cons_of_mem _ h')

theorem mem_of_mem_finalizeWrites {ws : List (String × DataFrame)}
    {x : String × DataFrame} (h : x ∈ finalizeWrites ws) : x ∈ ws := by
  rcases mem_finalizeWrites_aux h with h' | h'
  · cases h'
  · exact h'

theorem finalizeWrites_aux_of_nodup {ws acc : List (String × DataFrame)}
    (h : ((acc ++ ws).map Prod.fst).Nodup) :
    ws.foldl (fun acc w => acc.filter (fun y => y.1 != w.1) ++ [w]) acc = acc ++ ws := by
  induction ws generalizing acc with
  | nil => simp
  | cons w ws ih =>
    have hw : w.1 ∉ acc.map Prod.fst := by
      intro hmem
      rw [List.map_append] at h
      have := (List.nodup_append.mp h).2.2
      exact this hmem (by simp)
    have hfilter : acc.filter (fun y => y.1 != w.1) = acc := by
      apply List.filter_eq_self.mpr
      intro y hy
      simp only [bne_iff_ne, ne_eq, decide_eq_true_eq]
      intro hcontra
      exact hw (hcontra ▸ List.mem_map_of_mem Prod.fst hy)
    show (ws.foldl _ (acc.filter (fun y => y.1 != w.1) ++ [w])) = acc ++ w :: ws
    rw [hfilter]
    have h' : (((acc ++ [w]) ++ ws).map Prod.fst).Nodup := by
      simpa using h
    rw [ih h']
    simp

theorem finalizeWrites_of_nodup {ws : List (String × DataFrame)}
    (h : (ws.map Prod.fst).Nodup) : finalizeWrites ws = ws := by
  have := @finalizeWrites_aux_of_nodup ws [] (by simpa using h)
  simpa [finalizeWrites] using this

theorem cellAt_project {df : DataFrame} {cs : List String} {c : String}
    (r : List Cell) (h : c ∈ cs) :
    (df.project cs).cellAt (cs.map (df.cellAt r)) c = df.cellAt r c := by
  obtain ⟨i, hi⟩ := colIdx_isSome_of_mem h
  show ((colIdx cs c).map _).getD _ = _
  rw [hi]
  simpa using getD_map_colIdx (df.cellAt r) Cell.na hi

theorem rowKey_project {df : DataFrame} {cs : List String} (r : List Cell)
    (h1 : "MeasurementType" ∈ cs) (h2 : "Pupil Measured" ∈ cs) :
    (df.project cs).rowKey (cs.map (df.cellAt r)) = df.rowKey r := by
  unfold DataFrame.rowKey
  rw [cellAt_project r h1, cellAt_project r h2]

theorem filter_comm_map {α β : Type} (f : α → β) (p : β → Bool) (l : List α) :
    (l.map f).filter p = (l.filter (fun a => p (f a))).map f := by
  induction l with
  | nil => rfl
  | cons a l ih =>
    by_cases hp : p (f a)
    · simp [List.filter, hp, ih]
    · simp [List.filter, hp, ih]

theorem groupKeys_project {df : DataFrame} {cs : List String}
    (h1 : "MeasurementType" ∈ cs) (h2 : "Pupil Measured" ∈ cs) :
    (df.project cs).groupKeys = df.groupKeys := by
  unfold DataFrame.groupKeys
  congr 1
  show (df.rows.map _).filterMap _ = _
  rw [List.filterMap_map]
  apply List.filterMap_congr
  intro r _
  exact rowKey_project r h1 h2

theorem groupRows_project {df : DataFrame} {cs : List String} (k : Cell × Cell)
    (h1 : "MeasurementType" ∈ cs) (h2 : "Pupil Measured" ∈ cs) :
    (df.project cs).groupRows k = (df.groupRows k).map (fun r => cs.map (df.cellAt r)) := by
  unfold DataFrame.groupRows
  show (df.rows.map _).filter _ = _
  rw [filter_comm_map]
  congr 1
  apply List.filter_congr
  intro r _
  rw [rowKey_project r h1 h2]

/-- C2 counterexample: on `dfSplitClash` the input has two distinct
(MeasurementType, Pupil Measured) pairs but the splitter leaves a single
file on disk — the second group's write overwrites the first group's file,
so the output file count is not one per distinct pair. -/
theorem claim_C2_counterexample :
    dfSplitClash.groupKeys.length = 2 ∧
    (finalFiles (split_csv_file dfSplitClash)).length = 1 := by
  constructor
  · decide
  · decide

/-- C2 (amended): with all eleven required columns present and provided
distinct (MeasurementType, Pupil Measured) pairs yield distinct filenames,
the splitter leaves exactly one file per distinct pair present in the
input; each file holds exactly that group's rows (so its row count equals
the group's row count in the input) and exactly the required columns. -/
theorem claim_C2 (df : DataFrame)
    (hcols : ∀ c ∈ required_columns, c ∈ df.cols)
    (hinj : ∀ k1 ∈ df.groupKeys, ∀ k2 ∈ df.groupKeys,
      splitFileName k1 = splitFileName k2 → k1 = k2) :
    (split_csv_file df).errorMsg = none ∧
    (finalFiles (split_csv_file df)).length = df.groupKeys.length ∧
    (∀ k ∈ df.groupKeys,
      (splitFileName k,
        ({ cols := required_columns
           rows := (df.project required_columns).groupRows k } : DataFrame)) ∈
        finalFiles (split_csv_file df)) ∧
    (∀ f ∈ finalFiles (split_csv_file df), ∃ k ∈ df.groupKeys,
      f.1 = splitFileName k ∧ f.2.cols = required_columns ∧
      f.2.rows.length = (df.groupRows k).length) := by
  have hmt : "MeasurementType" ∈ required_columns := by decide
  have hpm : "Pupil Measured" ∈ required_columns := by decide
  have hsplit : split_csv_file df =
      { dirCreated := true
        writes := (df.project required_columns).groupKeys.map (fun k =>
          (splitFileName k,
            { cols := required_columns
              rows := (df.project required_columns).groupRows k }))
        errorMsg := none } := by
    rw [split_csv_file, if_pos hcols]
  have hkeys : (df.project required_columns).groupKeys = df.groupKeys :=
    groupKeys_project hmt hpm
  have hnodup : (((df.project required_columns).groupKeys.map (fun k =>
      (splitFileName k,
        ({ cols := required_columns
           rows := (df.project required_columns).groupRows k } : DataFrame)))).map
        Prod.fst).Nodup := by
    rw [List.map_map]
    have : (Prod.fst ∘ fun k =>
        (splitFileName k,
          ({ cols := required_columns
             rows := (df.project required_columns).groupRows k } : DataFrame))) =
        splitFileName := rfl
    rw [this, hkeys]
    exact List.Nodup.map_on hinj (nodup_groupKeys df)
  have hfin : finalFiles (split_csv_file df) =
      (df.project required_columns).groupKeys.map (fun k =>
        (splitFileName k,
          { cols := required_columns
            rows := (df.project required_columns).groupRows k })) := by
    rw [hsplit]
    exact finalizeWrites_of_nodup hnodup
  refine ⟨by rw [hsplit], ?_, ?_, ?_⟩
  · rw [hfin, List.length_map, hkeys]
  · intro k hk
    rw [hfin, List.mem_map]
    exact ⟨k, hkeys ▸ hk, rfl⟩
  · intro f hf
    rw [hfin, List.mem_map] at hf
    obtain ⟨k, hk, hfk⟩ := hf
    refine ⟨k, hkeys ▸ hk, ?_, ?_, ?_⟩
    · rw [← hfk]
    · rw [← hfk]
    · rw [← hfk]
      show ((df.project required_columns).groupRows k).length = _
      rw [groupRows_project k hmt hpm, List.length_map]

theorem claim_C2_witness :
    (∀ c ∈ required_columns, c ∈ dfSplitEx.cols) ∧
    (finalFiles (split_csv_file dfSplitEx)).length = dfSplitEx.groupKeys.length ∧
    (∀ f ∈ finalFiles (split_csv_file dfSplitEx), ∃ k ∈ dfSplitEx.groupKeys,
      f.1 = splitFileName k ∧ f.2.cols = required_columns ∧
      f.2.rows.length = (dfSplitEx.groupRows k).length) :=
  ⟨by decide,
   (claim_C2 dfSplitEx (by decide) (by decide)).2.1,
   (claim_C2 dfSplitEx (by decide) (by decide)).2.2.2⟩

/-- C8: when any required column is absent the splitter reports the error
and performs no filesystem action: no directory is created and no file is
written. -/
theorem claim_C8 (df : DataFrame) (h : ∃ c ∈ required_columns, c ∉ df.cols) :
    split_csv_file df =
      { dirCreated := false
        writes := []
        errorMsg := some "Error: Some required columns are missing in the CSV file." } := by
  rw [split_csv_file, if_neg]
  intro hall
  obtain ⟨c, hc, hnc⟩ := h
  exact hnc (hall c hc)

theorem claim_C8_witness :
    (∃ c ∈ required_columns, c ∉ dfMissingAmp.cols) ∧
    split_csv_file dfMissingAmp =
      { dirCreated := false
        writes := []
        errorMsg := some "Error: Some required columns are missing in the CSV file." } :=
  ⟨⟨"Amplitude", by decide, by decide⟩, claim_C8 dfMissingAmp ⟨"Amplitude", by decide, by decide⟩⟩

/-! ### Master-file append (averager main program) -/

theorem run_averager_eq (master : List (List Cell)) (df : DataFrame) :
    run_averager master df = master ++ appendedRows df := by
  unfold run_averager appendedRows
  cases calculate_averages df with
  | some res => rfl
  | none => simp

/-- C9: the averager run appends its rows after the existing master-file
content without a header line, leaving every pre-existing row in place,
and running it twice on the same input appends the same block twice —
the master grows by exactly twice the group count, with no deduplication. -/
theorem claim_C9 (master : List (List Cell)) (df : DataFrame)
    (h : "Pupil Measured" ∈ df.cols ∧ "MeasurementType" ∈ df.cols) :
    run_averager master df = master ++ appendedRows df ∧
    (run_averager master df).take master.length = master ∧
    run_averager (run_averager master df) df =
      master ++ (appendedRows df ++ appendedRows df) ∧
    (appendedRows df).length = df.groupKeys.length ∧
    (run_averager (run_averager master df) df).length =
      master.length + 2 * df.groupKeys.length := by
  have hlen : (appendedRows df).length = df.groupKeys.length := by
    rw [appendedRows, calculate_averages, if_pos h]
    simp [to_csv_rows]
  refine ⟨run_averager_eq master df, ?_, ?_, hlen, ?_⟩
  · rw [run_averager_eq]
    exact List.take_left master (appendedRows df)
  · rw [run_averager_eq, run_averager_eq, List.append_assoc]
  · rw [run_averager_eq, run_averager_eq]
    simp only [List.append_assoc, List.length_append, hlen]
    omega

theorem claim_C9_witness :
    ("Pupil Measured" ∈ dfAvgEx.cols ∧ "MeasurementType" ∈ dfAvgEx.cols) ∧
    (run_averager (run_averager ([] : List (List Cell)) dfAvgEx) dfAvgEx).length =
      ([] : List (List Cell)).length + 2 * dfAvgEx.groupKeys.length :=
  ⟨by decide, (claim_C9 [] dfAvgEx (by decide)).2.2.2.2⟩

/-! ### Silent exclusion of rows with a missing group key -/

theorem sum_map_add_nat {κ : Type} (ks : List κ) (u v : κ → ℕ) :
    (ks.map (fun k => u k + v k)).sum = (ks.map u).sum + (ks.map v).sum := by
  induction ks with
  | nil => simp
  | cons k ks ih =>
    simp only [List.map_cons, List.sum_cons, ih]
    omega

theorem sum_indicator_nodup {κ : Type} [DecidableEq κ] {ks : List κ} {k0 : κ}
    (hnd : ks.Nodup) (hmem : k0 ∈ ks) :
    (ks.map (fun k => if k0 = k then (1 : ℕ) else 0)).sum = 1 := by
  induction ks with
  | nil => cases hmem
  | cons k ks ih =>
    rcases List.mem_cons.mp hmem with h | h
    · subst h
      have hz : (ks.map (fun k' => if k0 = k' then (1 : ℕ) else 0)).sum = 0 := by
        apply List.sum_eq_zero
        intro x hx
        rw [List.mem_map] at hx
        obtain ⟨k', hk', rfl⟩ := hx
        have : k0 ≠ k' := by
          rintro rfl
          exact (List.nodup_cons.mp hnd).1 hk'
        simp [this]
      simp [hz]
    · have hk0k : k0 ≠ k := by
        rintro rfl
        exact (List.nodup_cons.mp hnd).1 h
      simp [hk0k, ih (List.nodup_cons.mp hnd).2 h]

/-- Partition count: when `ks` lists (without duplicates) every key that
occurs, the group sizes sum to the number of elements carrying a key. -/
theorem sum_filter_key {α κ : Type} [BEq κ] [LawfulBEq κ] [DecidableEq κ] (f : α → Option κ)
    (ks : List κ) (L : List α) (hnd : ks.Nodup)
    (hcov : ∀ a ∈ L, ∀ k, f a = some k → k ∈ ks) :
    (ks.map (fun k => (L.filter (fun a => f a == some k)).length)).sum =
      (L.filter (fun a => (f a).isSome)).length := by
  induction L with
  | nil => simp
  | cons a L ih =>
    have hcov' : ∀ b ∈ L, ∀ k, f b = some k → k ∈ ks :=
      fun b hb => hcov b (List.mem_cons_of_mem _ hb)
    cases hfa : f a with
    | none =>
      have hmap : ks.map (fun k => ((a :: L).filter (fun x => f x == some k)).length) =
          ks.map (fun k => (L.filter (fun x => f x == some k)).length) := by
        apply List.map_congr_left
        intro k _
        simp [List.filter_cons, hfa]
      rw [hmap, ih hcov']
      simp [List.filter_cons, hfa]
    | some k0 =>
      have hk0 : k0 ∈ ks := hcov a (List.mem_cons_self a L) k0 hfa
      have hlen : ∀ k ∈ ks, ((a :: L).filter (fun x => f x == some k)).length =
          (if k0 = k then (1 : ℕ) else 0) + (L.filter (fun x => f x == some k)).length := by
        intro k _
        by_cases hk : k0 = k
        · subst hk
          simp [List.filter_cons, hfa]
          omega
        · simp [List.filter_cons, hfa, hk]
      have hmap : ks.map (fun k => ((a :: L).filter (fun x => f x == some k)).length) =
          ks.map (fun k =>
            (if k0 = k then (1 : ℕ) else 0) + (L.filter (fun x => f x == some k)).length) :=
        List.map_congr_left hlen
      rw [hmap, sum_map_add_nat, sum_indicator_nodup hnd hk0, ih hcov']
      simp [List.filter_cons, hfa]
      omega

/-- The group sizes of a table sum to the number of rows whose key is
present: rows with a missing key are in no group. -/
theorem sum_group_sizes (df : DataFrame) :
    (df.groupKeys.map (fun k => (df.groupRows k).length)).sum =
      (df.rows.filter (fun x => (df.rowKey x).isSome)).length := by
  unfold DataFrame.groupRows
  apply sum_filter_key df.rowKey df.groupKeys df.rows (nodup_groupKeys df)
  intro a ha k hk
  exact mem_groupKeys.mpr ⟨a, ha, hk⟩

/-- C10: a row whose MeasurementType or Pupil Measured value is missing is
silently excluded: it belongs to no group (so it reaches no averaged row
and no split file), both scripts still succeed without reporting anything,
and the group sizes account exactly for the rows whose key is present. -/
theorem claim_C10 (df : DataFrame) (r : List Cell)
    (_hr : r ∈ df.rows) (hk : df.rowKey r = none)
    (havg : "Pupil Measured" ∈ df.cols ∧ "MeasurementType" ∈ df.cols)
    (hsp : ∀ c ∈ required_columns, c ∈ df.cols) :
    (∀ k, r ∉ df.groupRows k) ∧
    (calculate_averages df).isSome ∧
    (split_csv_file df).errorMsg = none ∧
    (∀ f ∈ finalFiles (split_csv_file df),
      (required_columns.map (df.cellAt r)) ∉ f.2.rows) ∧
    (df.groupKeys.map (fun k => (df.groupRows k).length)).sum =
      (df.rows.filter (fun x => (df.rowKey x).isSome)).length ∧
    r ∉ df.rows.filter (fun x => (df.rowKey x).isSome) := by
  have hmt : "MeasurementType" ∈ required_columns := by decide
  have hpm : "Pupil Measured" ∈ required_columns := by decide
  refine ⟨fun k => not_mem_groupRows hk k, ?_, ?_, ?_, sum_group_sizes df, ?_⟩
  · rw [calculate_averages, if_pos havg]
    rfl
  · rw [split_csv_file, if_pos hsp]
  · intro f hf
    rw [split_csv_file, if_pos hsp] at hf
    have hfw := mem_of_mem_finalizeWrites hf
    rw [List.mem_map] at hfw
    obtain ⟨k, _, hfk⟩ := hfw
    intro hrows
    rw [← hfk] at hrows
    have hkey := List.of_mem_filter hrows
    rw [rowKey_project r hmt hpm, hk] at hkey
    simp at hkey
  · intro hmem
    have := List.of_mem_filter hmem
    rw [hk] at this
    simp at this

theorem claim_C10_witness :
    (naKeyRow ∈ dfNaKey.rows ∧ dfNaKey.rowKey naKeyRow = none) ∧
    (∀ k, naKeyRow ∉ dfNaKey.groupRows k) ∧
    (calculate_averages dfNaKey).isSome ∧
    (dfNaKey.groupKeys.map (fun k => (dfNaKey.groupRows k).length)).sum =
      (dfNaKey.rows.filter (fun x => (dfNaKey.rowKey x).isSome)).length :=
  ⟨⟨by decide, by decide⟩,
   (claim_C10 dfNaKey naKeyRow (by decide) (by decide) (by decide) (by decide)).1,
   (claim_C10 dfNaKey naKeyRow (by decide) (by decide) (by decide) (by decide)).2.1,
   (claim_C10 dfNaKey naKeyRow (by decide) (by decide) (by decide) (by decide)).2.2.2.2.1⟩

/-! ### Group statistics pipeline (`tbmsNeuropticsPhysioCorrStats.py`) -/

theorem mapAt_getD (f : Cell → Cell) (r : List Cell) (i j : ℕ) (d : Cell) :
    (mapAt f i r).getD j d =
      if j = i ∧ j < r.length then f (r.getD j d) else r.getD j d := by
  induction r generalizing i j with
  | nil => simp [mapAt]
  | cons c r ih =>
    cases i with
    | zero =>
      cases j with
      | zero => simp [mapAt]
      | succ j => simp [mapAt]
    | succ i =>
      cases j with
      | zero => simp [mapAt]
      | succ j =>
        simp only [mapAt, List.getD_cons_succ, ih, List.length_cons]
        by_cases hj : j = i ∧ j < r.length
        · rw [if_pos hj, if_pos (by omega)]
        · rw [if_neg hj, if_neg (by omega)]

theorem coalesceCell_na : coalesceCell Cell.na = Cell.na := by decide

theorem cellAt_coalesce_group {df : DataFrame} {gi : ℕ}
    (hgi : colIdx df.cols "Group" = some gi) (r : List Cell) :
    (coalesceGroups df).cellAt (mapAt coalesceCell gi r) "Group" =
      coalesceCell (df.cellAt r "Group") := by
  show ((colIdx df.cols "Group").map
      (fun i => (mapAt coalesceCell gi r).getD i Cell.na)).getD Cell.na =
    coalesceCell (((colIdx df.cols "Group").map (fun i => r.getD i Cell.na)).getD Cell.na)
  rw [hgi]
  simp only [Option.map_some', Option.getD_some]
  rw [mapAt_getD]
  by_cases hlen : gi < r.length
  · rw [if_pos ⟨rfl, hlen⟩]
  · rw [if_neg (by omega), List.getD_eq_default _ _ (by omega), coalesceCell_na]

theorem cellAt_coalesce_other {df : DataFrame} {gi : ℕ} {c : String}
    (hgi : colIdx df.cols "Group" = some gi) (hc : c ≠ "Group") (r : List Cell) :
    (coalesceGroups df).cellAt (mapAt coalesceCell gi r) c = df.cellAt r c := by
  show ((colIdx df.cols c).map (fun i => (mapAt coalesceCell gi r).getD i Cell.na)).getD Cell.na
    = ((colIdx df.cols c).map (fun i => r.getD i Cell.na)).getD Cell.na
  cases hci : colIdx df.cols c with
  | none => rfl
  | some i =>
    have hne : i ≠ gi := by
      intro hig
      apply hc
      have h1 := colIdx_getD hci ""
      have h2 := colIdx_getD hgi ""
      rw [← h1, hig, h2]
    simp only [Option.map_some', Option.getD_some]
    rw [mapAt_getD, if_neg (by omega)]

theorem rows_coalesce {df : DataFrame} {gi : ℕ}
    (hgi : colIdx df.cols "Group" = some gi) :
    (coalesceGroups df).rows = df.rows.map (mapAt coalesceCell gi) := by
  show ((colIdx df.cols "Group").map
    (fun gi => df.rows.map (mapAt coalesceCell gi))).getD df.rows = _
  rw [hgi]
  rfl

theorem cols_coalesce (df : DataFrame) : (coalesceGroups df).cols = df.cols := rfl

/-- The `Group` column of a coalesced table is the coalesced `Group`
column. -/
theorem groupCol_coalesce {df : DataFrame} (h : "Group" ∈ df.cols) :
    colCells (coalesceGroups df) (coalesceGroups df).rows "Group" =
      (colCells df df.rows "Group").map coalesceCell := by
  obtain ⟨gi, hgi⟩ := colIdx_isSome_of_mem h
  rw [colCells, colCells, rows_coalesce hgi, List.map_map, List.map_map]
  apply List.map_congr_left
  intro r _
  show (coalesceGroups df).cellAt (mapAt coalesceCell gi r) "Group" =
    coalesceCell (df.cellAt r "Group")
  exact cellAt_coalesce_group hgi r

/-- Count bookkeeping of coalescing over a list of labels drawn from
{Control, Preg Norm, Preg Hyper}. -/
theorem coalesce_counts (l : List Cell)
    (hlab : ∀ c ∈ l, c = Cell.str "Control" ∨ c = Cell.str "Preg Norm" ∨
      c = Cell.str "Preg Hyper") :
    (l.map coalesceCell).count (Cell.str "Pregnant") =
      l.count (Cell.str "Preg Norm") + l.count (Cell.str "Preg Hyper") ∧
    (l.map coalesceCell).count (Cell.str "Control") = l.count (Cell.str "Control") ∧
    ∀ c ∈ l.map coalesceCell, c = Cell.str "Control" ∨ c = Cell.str "Pregnant" := by
  induction l with
  | nil => simp
  | cons a l ih =>
    have hlab' : ∀ c ∈ l, c = Cell.str "Control" ∨ c = Cell.str "Preg Norm" ∨
        c = Cell.str "Preg Hyper" := fun c hc => hlab c (List.mem_cons_of_mem _ hc)
    obtain ⟨ih1, ih2, ih3⟩ := ih hlab'
    have hmem : ∀ c ∈ (a :: l).map coalesceCell,
        c = Cell.str "Control" ∨ c = Cell.str "Pregnant" := by
      intro c hc
      rcases List.mem_cons.mp hc with hc' | hc'
      · rcases hlab a (List.mem_cons_self a l) with ha | ha | ha <;>
          rw [hc', ha] <;> simp [coalesceCell]
      · exact ih3 c hc'
    rcases hlab a (List.mem_cons_self a l) with ha | ha | ha <;>
      subst ha <;>
      refine ⟨?_, ?_, hmem⟩ <;>
      simp [List.count_cons, coalesceCell, ih1, ih2] <;>
      omega

/-- C7: coalescing rewrites exactly 'Preg Norm' and 'Preg Hyper' to
'Pregnant' and passes every other label through; on a table whose labels
lie in {Control, Preg Norm, Preg Hyper} it preserves the row count, leaves
only labels in {Control, Pregnant}, keeps each label's presence, preserves
the Control count, and gives Pregnant count = Preg Norm + Preg Hyper. -/
theorem claim_C7 (df : DataFrame) (h : "Group" ∈ df.cols)
    (hlab : ∀ c ∈ colCells df df.rows "Group",
      c = Cell.str "Control" ∨ c = Cell.str "Preg Norm" ∨ c = Cell.str "Preg Hyper") :
    coalesceCell (Cell.str "Preg Norm") = Cell.str "Pregnant" ∧
    coalesceCell (Cell.str "Preg Hyper") = Cell.str "Pregnant" ∧
    (∀ c, c ≠ Cell.str "Preg Norm" → c ≠ Cell.str "Preg Hyper" → coalesceCell c = c) ∧
    (coalesceGroups df).rows.length = df.rows.length ∧
    (∀ c ∈ colCells (coalesceGroups df) (coalesceGroups df).rows "Group",
      c = Cell.str "Control" ∨ c = Cell.str "Pregnant") ∧
    (Cell.str "Control" ∈ colCells (coalesceGroups df) (coalesceGroups df).rows "Group" ↔
      Cell.str "Control" ∈ colCells df df.rows "Group") ∧
    (Cell.str "Pregnant" ∈ colCells (coalesceGroups df) (coalesceGroups df).rows "Group" ↔
      (Cell.str "Preg Norm" ∈ colCells df df.rows "Group" ∨
       Cell.str "Preg Hyper" ∈ colCells df df.rows "Group")) ∧
    (colCells (coalesceGroups df) (coalesceGroups df).rows "Group").count
      (Cell.str "Control") = (colCells df df.rows "Group").count (Cell.str "Control") ∧
    (colCells (coalesceGroups df) (coalesceGroups df).rows "Group").count
      (Cell.str "Pregnant") =
      (colCells df df.rows "Group").count (Cell.str "Preg Norm") +
      (colCells df df.rows "Group").count (Cell.str "Preg Hyper") := by
  obtain ⟨gi, hgi⟩ := colIdx_isSome_of_mem h
  have hcol := groupCol_coalesce h
  obtain ⟨hcnt1, hcnt2, hmem⟩ := coalesce_counts (colCells df df.rows "Group") hlab
  refine ⟨by decide, by decide, ?_, ?_, ?_, ?_, ?_, ?_, ?_⟩
  · intro c h1 h2
    rw [coalesceCell, if_neg]
    rintro (hc | hc)
    · exact h1 hc
    · exact h2 hc
  · rw [rows_coalesce hgi, List.length_map]
  · rw [hcol]
    exact hmem
  · rw [hcol, ← List.count_pos_iff, ← List.count_pos_iff, hcnt2]
  · rw [hcol, ← List.count_pos_iff, ← List.count_pos_iff, ← List.count_pos_iff, hcnt1]
    omega
  · rw [hcol, hcnt2]
  · rw [hcol, hcnt1]

theorem claim_C7_witness :
    ("Group" ∈ dfStatsEx.cols ∧
      (∀ c ∈ colCells dfStatsEx dfStatsEx.rows "Group",
        c = Cell.str "Control" ∨ c = Cell.str "Preg Norm" ∨ c = Cell.str "Preg Hyper")) ∧
    (coalesceGroups dfStatsEx).rows.length = dfStatsEx.rows.length ∧
    (colCells (coalesceGroups dfStatsEx) (coalesceGroups dfStatsEx).rows "Group").count
      (Cell.str "Pregnant") =
      (colCells dfStatsEx dfStatsEx.rows "Group").count (Cell.str "Preg Norm") +
      (colCells dfStatsEx dfStatsEx.rows "Group").count (Cell.str "Preg Hyper") :=
  ⟨⟨by decide, by decide⟩,
   (claim_C7 dfStatsEx (by decide) (by decide)).2.2.2.1,
   (claim_C7 dfStatsEx (by decide) (by decide)).2.2.2.2.2.2.2.2⟩

theorem fillBoth_eq {α : Type} (v : ℕ → ℕ → α × α) (ps : List (ℕ × ℕ))
    (MP : (ℕ → ℕ → α) × (ℕ → ℕ → α)) :
    fillBoth v ps MP =
      (fillSym (fun i j => (v i j).1) ps MP.1, fillSym (fun i j => (v i j).2) ps MP.2) := by
  induction ps generalizing MP with
  | nil => simp [fillBoth, fillSym]
  | cons p ps ih =>
    show fillBoth v ps _ = _
    rw [ih]
    rfl

theorem mem_pairList {n i j : ℕ} : (i, j) ∈ pairList n ↔ i ≤ j ∧ j < n := by
  simp only [pairList, List.mem_flatMap, List.mem_map, List.mem_filter, List.mem_range]
  constructor
  · rintro ⟨i', _, j', ⟨hj', hij'⟩, he⟩
    injection he with h1 h2
    subst h1
    subst h2
    exact ⟨by simpa using hij', hj'⟩
  · rintro ⟨hij, hj⟩
    exact ⟨i, by omega, j, ⟨hj, by simpa using hij⟩, rfl⟩

theorem pairList_le {n : ℕ} {p : ℕ × ℕ} (hp : p ∈ pairList n) : p.1 ≤ p.2 := by
  obtain ⟨i, j⟩ := p
  exact (mem_pairList.mp hp).1

theorem fillSym_eq {α : Type} (v : ℕ → ℕ → α) (ps : List (ℕ × ℕ))
    (hps : ∀ p ∈ ps, p.1 ≤ p.2) (M : ℕ → ℕ → α) (a b : ℕ) :
    fillSym v ps M a b =
      if (a, b) ∈ ps ∨ (b, a) ∈ ps then v (min a b) (max a b) else M a b := by
  induction ps generalizing M with
  | nil => simp [fillSym]
  | cons p ps ih =>
    have hps' : ∀ q ∈ ps, q.1 ≤ q.2 := fun q hq => hps q (List.mem_cons_of_mem _ hq)
    show fillSym v ps (writeSym v M p) a b = _
    rw [ih hps']
    by_cases h1 : (a, b) ∈ ps ∨ (b, a) ∈ ps
    · rw [if_pos h1, if_pos]
      rcases h1 with h1 | h1
      · exact Or.inl (List.mem_cons_of_mem _ h1)
      · exact Or.inr (List.mem_cons_of_mem _ h1)
    · rw [if_neg h1]
      by_cases h2 : p = (a, b) ∨ p = (b, a)
      · rw [if_pos]
        · have hple := hps p (List.mem_cons_self p (ps : List (ℕ × ℕ)))
          rcases h2 with h2 | h2 <;> subst h2
          · have hab : a ≤ b := hple
            rw [Nat.min_eq_left hab, Nat.max_eq_right hab]
            simp [writeSym, updM]
          · have hba : b ≤ a := hple
            rw [Nat.min_eq_right hba, Nat.max_eq_left hba]
            simp [writeSym, updM]
        · rcases h2 with h2 | h2 <;> subst h2
          · exact Or.inl (List.mem_cons_self _ _)
          · exact Or.inr (List.mem_cons_self _ _)
      · rw [if_neg]
        · have hne1 : ¬(a = p.1 ∧ b = p.2) := by
            rintro ⟨hx, hy⟩
            exact h2 (Or.inl (by rw [Prod.ext_iff]; exact ⟨hx.symm, hy.symm⟩))
          have hne2 : ¬(a = p.2 ∧ b = p.1) := by
            rintro ⟨hx, hy⟩
            exact h2 (Or.inr (by rw [Prod.ext_iff]; exact ⟨hy.symm, hx.symm⟩))
          simp only [writeSym, updM, if_neg hne1, if_neg hne2]
        · rintro (hm | hm) <;> rcases List.mem_cons.mp hm with hm' | hm'
          · exact h2 (Or.inl hm'.symm)
          · exact h1 (Or.inl hm')
          · exact h2 (Or.inr hm'.symm)
          · exact h1 (Or.inr hm')

theorem corrStage_entry {α : Type} [Zero α] (pr : List Cell → List Cell → α × α)
    (M0 : ℕ → ℕ → α) (df : DataFrame) {i j : ℕ}
    (hi : i < analysisVars.length) (hj : j < analysisVars.length) :
    (corrStage pr M0 df).1 i j =
      (pr (analysisCol df (min i j)) (analysisCol df (max i j))).1 ∧
    (corrStage pr M0 df).2 i j =
      (pr (analysisCol df (min i j)) (analysisCol df (max i j))).2 := by
  have hcond : (i, j) ∈ pairList analysisVars.length ∨
      (j, i) ∈ pairList analysisVars.length := by
    rcases Nat.le_total i j with hij | hij
    · exact Or.inl (mem_pairList.mpr ⟨hij, hj⟩)
    · exact Or.inr (mem_pairList.mpr ⟨hij, hi⟩)
  rw [corrStage, fillBoth_eq]
  constructor
  · show fillSym _ _ M0 i j = _
    rw [fillSym_eq _ _ (fun p hp => pairList_le hp) M0 i j, if_pos hcond]
  · show fillSym _ _ (fun _ _ => (0 : α)) i j = _
    rw [fillSym_eq _ _ (fun p hp => pairList_le hp) _ i j, if_pos hcond]

/-- Exactness of the missingness cleaning over a row list: the
concatenation Control-cleaned ++ Pregnant is a permutation of the rows
minus exactly the incomplete Control rows, provided every row is labelled
Control or Pregnant. -/
theorem cleaned_perm_aux (df : DataFrame) :
    ∀ l : List (List Cell),
      (∀ r ∈ l, df.cellAt r "Group" = Cell.str "Control" ∨
        df.cellAt r "Group" = Cell.str "Pregnant") →
      List.Perm ((l.filter (isControlRow df)).filter (completeRow df) ++
          l.filter (isPregnantRow df))
        (l.filter (fun r => !(isControlRow df r && !completeRow df r)))
  | [], _ => by simp
  | r :: l, hlab => by
    have hlab' : ∀ x ∈ l, df.cellAt x "Group" = Cell.str "Control" ∨
        df.cellAt x "Group" = Cell.str "Pregnant" :=
      fun x hx => hlab x (List.mem_cons_of_mem _ hx)
    have ihp := cleaned_perm_aux df l hlab'
    rcases hlab r (List.mem_cons_self r l) with hc | hp
    · have hcr : isControlRow df r = true := by simp [isControlRow, hc]
      have hpr : isPregnantRow df r = false := by
        rw [isPregnantRow, hc]
        decide
      by_cases hcomp : completeRow df r = true
      · simp only [List.filter_cons, hcr, hpr, hcomp, Bool.not_true, Bool.and_false,
          Bool.not_false, if_true, if_false, List.cons_append]
        exact List.Perm.cons r ihp
      · have hcomp' : completeRow df r = false := by
          cases hcf : completeRow df r
          · rfl
          · exact absurd hcf hcomp
        simp only [List.filter_cons, hcr, hpr, hcomp', Bool.not_false, Bool.and_true,
          Bool.not_true, if_true, if_false]
        exact ihp
    · have hcr : isControlRow df r = false := by
        rw [isControlRow, hp]
        decide
      have hpr : isPregnantRow df r = true := by simp [isPregnantRow, hp]
      simp only [List.filter_cons, hcr, hpr, Bool.false_and, Bool.not_false, if_true, if_false]
      exact List.Perm.trans List.perm_middle (List.Perm.cons r ihp)

/-- Exactness of the missingness cleaning for the pipeline's cleaned data. -/
theorem df_cleaned_perm (df : DataFrame)
    (hlab : ∀ r ∈ df.rows, df.cellAt r "Group" = Cell.str "Control" ∨
      df.cellAt r "Group" = Cell.str "Pregnant") :
    List.Perm (df_cleaned df)
      (df.rows.filter (fun r => !(isControlRow df r && !completeRow df r))) := by
  rw [df_cleaned, df_control, df_pregnant]
  exact cleaned_perm_aux df df.rows hlab

/-- C4: in the correlation stage, exactly the incomplete Control rows are
dropped (Pregnant rows are never filtered), and both matrices hold, at
every index pair, the `pearsonr` outputs computed on the concatenation of
the cleaned Control subset and the unfiltered Pregnant subset.  `pr` is
the `pearsonr` oracle, symmetric like the Pearson statistic itself. -/
theorem claim_C4 {α : Type} [Zero α] (pr : List Cell → List Cell → α × α)
    (hsym : ∀ x y, pr x y = pr y x) (M0 : ℕ → ℕ → α) (df2 : DataFrame)
    (hlab : ∀ r ∈ df2.rows, df2.cellAt r "Group" = Cell.str "Control" ∨
      df2.cellAt r "Group" = Cell.str "Pregnant") :
    List.Perm (df_cleaned df2)
      (df2.rows.filter (fun r => !(isControlRow df2 r && !completeRow df2 r))) ∧
    (∀ i j, i < analysisVars.length → j < analysisVars.length →
      (corrStage pr M0 df2).1 i j = (pr (analysisCol df2 i) (analysisCol df2 j)).1 ∧
      (corrStage pr M0 df2).2 i j = (pr (analysisCol df2 i) (analysisCol df2 j)).2) := by
  refine ⟨df_cleaned_perm df2 hlab, ?_⟩
  intro i j hi hj
  obtain ⟨e1, e2⟩ := corrStage_entry pr M0 df2 hi hj
  rcases Nat.le_total i j with hij | hij
  · rw [Nat.min_eq_left hij, Nat.max_eq_right hij] at e1 e2
    exact ⟨e1, e2⟩
  · rw [Nat.min_eq_right hij, Nat.max_eq_left hij] at e1 e2
    rw [hsym (analysisCol df2 j) (analysisCol df2 i)] at e1 e2
    exact ⟨e1, e2⟩

theorem claim_C4_witness :
    (∀ r ∈ dfCleanEx.rows, dfCleanEx.cellAt r "Group" = Cell.str "Control" ∨
      dfCleanEx.cellAt r "Group" = Cell.str "Pregnant") ∧
    List.Perm (df_cleaned dfCleanEx)
      (dfCleanEx.rows.filter
        (fun r => !(isControlRow dfCleanEx r && !completeRow dfCleanEx r))) ∧
    (corrStage prQ0 M0Q dfCleanEx).1 0 1 =
      (prQ0 (analysisCol dfCleanEx 0) (analysisCol dfCleanEx 1)).1 :=
  ⟨by decide,
   (claim_C4 prQ0 (fun _ _ => rfl) M0Q dfCleanEx (by decide)).1,
   (((claim_C4 prQ0 (fun _ _ => rfl) M0Q dfCleanEx (by decide)).2 0 1
      (by decide) (by decide))).1⟩

/-! ### The Pearson correlation coefficient (value-level model of
`scipy.stats.pearsonr`'s statistic) -/

theorem sumDevProd_aux (m : ℚ) :
    ∀ l : List ℚ,
      ((l.zip l).map (fun p => (p.1 - m) * (p.2 - m))).sum =
        (l.map (fun x => (x - m) ^ 2)).sum
  | [] => by simp
  | a :: l => by
    rw [List.zip_cons_cons, List.map_cons, List.sum_cons, List.map_cons, List.sum_cons,
      sumDevProd_aux m l]
    ring

theorem sumDevProd_self (l : List ℚ) : sumDevProd l l = sumSqDev l := by
  rw [sumDevProd, sumSqDev]
  exact sumDevProd_aux (meanQ l) l

theorem sumSqDev_nonneg (l : List ℚ) : 0 ≤ sumSqDev l := by
  apply List.sum_nonneg
  intro x hx
  rw [List.mem_map] at hx
  obtain ⟨y, _, rfl⟩ := hx
  exact sq_nonneg _

theorem pearsonR_self {l : List ℚ} (h : sumSqDev l ≠ 0) : pearsonR l l = 1 := by
  rw [pearsonR, sumDevProd_self]
  rw [Real.sqrt_mul_self (by exact_mod_cast sumSqDev_nonneg l)]
  rw [div_self]
  exact_mod_cast h

/-- C5: on non-degenerate input (no missing analysis value in the cleaned
data, each cleaned column of positive variance), the computed correlation
matrix is symmetric with unit diagonal and the p-value matrix is
symmetric. -/
theorem claim_C5 (pOr : List Cell → List Cell → ℝ) (M0 : ℕ → ℕ → ℝ)
    (df2 : DataFrame)
    (hnum : ∀ i < analysisVars.length, ∀ c ∈ analysisCol df2 i, c.toNum.isSome)
    (hvar : ∀ i < analysisVars.length, sumSqDev (cellNums (analysisCol df2 i)) ≠ 0) :
    (∀ i j, i < analysisVars.length → j < analysisVars.length →
      (corrStage (scipyPearson pOr) M0 df2).1 i j =
        (corrStage (scipyPearson pOr) M0 df2).1 j i ∧
      (corrStage (scipyPearson pOr) M0 df2).2 i j =
        (corrStage (scipyPearson pOr) M0 df2).2 j i) ∧
    (∀ i < analysisVars.length, (corrStage (scipyPearson pOr) M0 df2).1 i i = 1) := by
  constructor
  · intro i j hi hj
    obtain ⟨e1, e2⟩ := corrStage_entry (scipyPearson pOr) M0 df2 hi hj
    obtain ⟨f1, f2⟩ := corrStage_entry (scipyPearson pOr) M0 df2 hj hi
    rw [Nat.min_comm j i, Nat.max_comm j i] at f1 f2
    exact ⟨e1.trans f1.symm, e2.trans f2.symm⟩
  · intro i hi
    obtain ⟨e1, _⟩ := corrStage_entry (scipyPearson pOr) M0 df2 hi hi
    rw [Nat.min_self, Nat.max_self] at e1
    rw [e1]
    exact pearsonR_self (hvar i hi)

theorem claim_C5_witness :
    (∀ i < analysisVars.length, ∀ c ∈ analysisCol dfCleanEx i, c.toNum.isSome) ∧
    (∀ i < analysisVars.length,
      sumSqDev (cellNums (analysisCol dfCleanEx i)) ≠ 0) ∧
    (corrStage (scipyPearson (fun _ _ => 0)) M0R dfCleanEx).1 0 1 =
      (corrStage (scipyPearson (fun _ _ => 0)) M0R dfCleanEx).1 1 0 ∧
    (corrStage (scipyPearson (fun _ _ => 0)) M0R dfCleanEx).1 0 0 = 1 := by
  have hnum : ∀ i < analysisVars.length,
      ∀ c ∈ analysisCol dfCleanEx i, c.toNum.isSome := by decide
  have hvar : ∀ i < analysisVars.length,
      sumSqDev (cellNums (analysisCol dfCleanEx i)) ≠ 0 := by
    intro i hi
    have hi11 : i < 11 := by
      simpa [analysisVars, dependent_vars, covariates] using hi
    have hc : cellNums (analysisCol dfCleanEx i) = [0, 1] := by
      interval_cases i <;> rfl
    rw [hc]
    simp [sumSqDev, meanQ]
    norm_num
  exact ⟨hnum, hvar,
    ((claim_C5 (fun _ _ => 0) M0R dfCleanEx hnum hvar).1 0 1 (by decide) (by decide)).1,
    (claim_C5 (fun _ _ => 0) M0R dfCleanEx hnum hvar).2 0 (by decide)⟩

/-- C6: step 4 selects the test by the normality gate: the i-th report line
concerns the i-th dependent variable, uses ANOVA exactly when the
Shapiro-Wilk p-values of both the Control and the Pregnant vector exceed
0.05, and otherwise uses Kruskal-Wallis; its p-value is the selected
test's.  One line is produced per dependent variable. -/
theorem claim_C6 (sh : List Cell → ℚ) (anovaP kruskalP : List Cell → List Cell → ℚ)
    (df2 : DataFrame) (i : ℕ) (hi : i < dependent_vars.length) :
    ((stage4 sh anovaP kruskalP df2).getD i ⟨"", TestKind.kruskal, 0⟩).varName =
      dependent_vars.getD i "" ∧
    (((stage4 sh anovaP kruskalP df2).getD i ⟨"", TestKind.kruskal, 0⟩).test =
        TestKind.anova ↔
      (sh (controlVec df2 (dependent_vars.getD i "")) > 1 / 20 ∧
       sh (pregnantVec df2 (dependent_vars.getD i "")) > 1 / 20)) ∧
    (((stage4 sh anovaP kruskalP df2).getD i ⟨"", TestKind.kruskal, 0⟩).test =
        TestKind.anova →
      ((stage4 sh anovaP kruskalP df2).getD i ⟨"", TestKind.kruskal, 0⟩).pval =
        anovaP (controlVec df2 (dependent_vars.getD i ""))
          (pregnantVec df2 (dependent_vars.getD i ""))) ∧
    (((stage4 sh anovaP kruskalP df2).getD i ⟨"", TestKind.kruskal, 0⟩).test =
        TestKind.kruskal →
      ((stage4 sh anovaP kruskalP df2).getD i ⟨"", TestKind.kruskal, 0⟩).pval =
        kruskalP (controlVec df2 (dependent_vars.getD i ""))
          (pregnantVec df2 (dependent_vars.getD i ""))) ∧
    (stage4 sh anovaP kruskalP df2).length = dependent_vars.length := by
  have hmap : (stage4 sh anovaP kruskalP df2).getD i ⟨"", TestKind.kruskal, 0⟩ =
      (if sh (controlVec df2 (dependent_vars.getD i "")) > 1 / 20 ∧
          sh (pregnantVec df2 (dependent_vars.getD i "")) > 1 / 20 then
        ({ varName := dependent_vars.getD i "", test := TestKind.anova
           pval := anovaP (controlVec df2 (dependent_vars.getD i ""))
             (pregnantVec df2 (dependent_vars.getD i "")) } : GroupComparison)
      else
        { varName := dependent_vars.getD i "", test := TestKind.kruskal
          pval := kruskalP (controlVec df2 (dependent_vars.getD i ""))
            (pregnantVec df2 (dependent_vars.getD i "")) }) := by
    rw [stage4, List.getD_eq_getElem _ _ (by simpa using hi), List.getElem_map,
      List.getD_eq_getElem _ _ hi]
  rw [hmap]
  by_cases hgate : sh (controlVec df2 (dependent_vars.getD i "")) > 1 / 20 ∧
      sh (pregnantVec df2 (dependent_vars.getD i "")) > 1 / 20
  · rw [if_pos hgate]
    refine ⟨rfl, ?_, fun _ => rfl, ?_, ?_⟩
    · simpa using hgate
    · intro hk
      simp at hk
    · rw [stage4, List.length_map]
  · rw [if_neg hgate]
    refine ⟨rfl, ?_, ?_, fun _ => rfl, ?_⟩
    · constructor
      · intro ha
        simp at ha
      · intro hg
        exact absurd hg hgate
    · intro ha
      simp at ha
    · rw [stage4, List.length_map]

theorem claim_C6_witness :
    (0 < dependent_vars.length) ∧
    (((stage4 shQ1 tpQ0 tpQ0 dfCleanEx).getD 0 ⟨"", TestKind.kruskal, 0⟩).test =
        TestKind.anova ↔
      (shQ1 (controlVec dfCleanEx (dependent_vars.getD 0 "")) > 1 / 20 ∧
       shQ1 (pregnantVec dfCleanEx (dependent_vars.getD 0 "")) > 1 / 20)) ∧
    (stage4 shQ1 tpQ0 tpQ0 dfCleanEx).length = dependent_vars.length :=
  ⟨by decide,
   (claim_C6 shQ1 tpQ0 tpQ0 dfCleanEx 0 (by decide)).2.1,
   (claim_C6 shQ1 tpQ0 tpQ0 dfCleanEx 0 (by decide)).2.2.2.2⟩

/-- C3 counterexample: the statistics pipeline performs the unchecked
by-name access `df['Group']`; on a dataset without that column it raises
an uncaught KeyError (no reported message and early return), so the claim
that every pipeline schema-checks before any by-name access is false. -/
theorem claim_C3_counterexample :
    statsPipeline prQ0 shQ0 tpQ0 tpQ0 M0Q dfNoGroup =
      Except.error "KeyError: Group" := by
  rw [statsPipeline, if_neg (by decide)]

/-- C3 (amended): the averager and the splitter schema-check their required
columns before any by-name access and report-and-return when one is
absent; the statistics pipeline instead performs unchecked accesses
(`Group`, then the analysis columns) and raises an unhandled KeyError when
they are missing. -/
theorem claim_C3 :
    (∀ df : DataFrame,
      ("Pupil Measured" ∉ df.cols ∨ "MeasurementType" ∉ df.cols) →
      calculate_averages df = none) ∧
    (∀ df : DataFrame, (∃ c ∈ required_columns, c ∉ df.cols) →
      split_csv_file df =
        { dirCreated := false
          writes := []
          errorMsg := some "Error: Some required columns are missing in the CSV file." }) ∧
    (∀ (df : DataFrame) (pr : List Cell → List Cell → ℚ × ℚ)
      (sh : List Cell → ℚ) (aP kP : List Cell → List Cell → ℚ) (M0 : ℕ → ℕ → ℚ),
      "Group" ∉ df.cols →
      statsPipeline pr sh aP kP M0 df = Except.error "KeyError: Group") := by
  refine ⟨?_, ?_, ?_⟩
  · intro df h
    rw [calculate_averages, if_neg]
    rintro ⟨h1, h2⟩
    rcases h with h | h
    · exact h h1
    · exact h h2
  · intro df h
    rw [split_csv_file, if_neg]
    intro hall
    obtain ⟨c, hc, hnc⟩ := h
    exact hnc (hall c hc)
  · intro df pr sh aP kP M0 h
    rw [statsPipeline, if_neg h]

theorem claim_C3_witness :
    (("Pupil Measured" ∉ dfNoGroup.cols ∨ "MeasurementType" ∉ dfNoGroup.cols) ∧
      calculate_averages dfNoGroup = none) ∧
    ((∃ c ∈ required_columns, c ∉ dfNoGroup.cols) ∧
      split_csv_file dfNoGroup =
        { dirCreated := false
          writes := []
          errorMsg := some "Error: Some required columns are missing in the CSV file." }) ∧
    ("Group" ∉ dfNoGroup.cols ∧
      statsPipeline prQ0 shQ0 tpQ0 tpQ0 M0Q dfNoGroup =
        Except.error "KeyError: Group") :=
  ⟨⟨by decide, claim_C3.1 dfNoGroup (by decide)⟩,
   ⟨⟨"Patient ID", by decide, by decide⟩,
    claim_C3.2.1 dfNoGroup ⟨"Patient ID", by decide, by decide⟩⟩,
   ⟨by decide, claim_C3.2.2 dfNoGroup prQ0 shQ0 tpQ0 tpQ0 M0Q (by decide)⟩⟩
